import Mathlib

/-!
Shallow embedding of the mpool connection pool (src/lib.rs).

Time is modelled in microseconds: `Instant` becomes a `Nat` timestamp and
`Duration` becomes a `Nat` (the source compares durations via `as_micros()`).
The connection type `C` is an opaque type parameter, as in the source where
`M::Connection` is opaque to the pool.

The mutex-guarded `PoolInternals` is threaded explicitly through every
operation: each Rust method that reads or mutates `self.interval()` becomes a
function taking and returning a `PoolInternals C`.

The caller-supplied capability (`ManageConnection`) is modelled as a record of
the outcomes the pool can observe during one invocation: the result and
duration of a `connect()` call, and `check`/`has_broken` as boolean-valued
functions on connections. Each pool operation receives the capability record
describing the external behaviour observed during that call.
-/

/-- Embeds `struct IdleConn<C>` (src/lib.rs lines 434-438): a pooled
connection with its `last_visited` and `created` timestamps. -/
structure IdleConn (C : Type) where
  conn : C
  last_visited : Nat
  created : Nat
  deriving DecidableEq, Repr

/-- Embeds `struct PoolInternals<C>` (src/lib.rs lines 440-443): the idle
registry (front of the list = front of the `LinkedList`) and the active
counter. -/
structure PoolInternals (C : Type) where
  conns : List (IdleConn C)
  active : Nat
  deriving DecidableEq, Repr

/-- Embeds the `ManageConnection` trait (src/lib.rs lines 50-68) as the
behaviour the pool observes on one interaction: `connect` is the result of a
`connect()` call and `connectDuration` how long that call takes; `check` and
`has_broken` give the outcome of `check(conn)` (`true` = `Ok`) and
`has_broken(conn)` for each connection. -/
structure ManageConnection (C : Type) where
  connect : Except String C
  connectDuration : Nat
  check : C → Bool
  has_broken : C → Bool

/-- Embeds `struct Builder<M>` (src/lib.rs lines 75-84): the configurable
fields (the `PhantomData` marker is dropped). -/
structure Builder where
  max_lifetime : Option Nat
  idle_timeout : Option Nat
  connection_timeout : Option Nat
  max_size : Nat
  deriving DecidableEq, Repr

/-- Embeds `impl Default for Builder` (src/lib.rs lines 100-113):
30 min max lifetime, 3 min idle timeout, 3 s connection timeout,
`max_size = 0`, all in microseconds. -/
def Builder.default : Builder where
  max_lifetime := some 1800000000
  idle_timeout := some 180000000
  connection_timeout := some 3000000
  max_size := 0

/-- Embeds `Builder::max_lifetime` (src/lib.rs lines 136-143): a zero
duration is ignored and the previous value kept. -/
def Builder.set_max_lifetime (b : Builder) (max_lifetime : Option Nat) : Builder :=
  if max_lifetime = some 0 then b else { b with max_lifetime := max_lifetime }

/-- Embeds `Builder::idle_timeout` (src/lib.rs lines 152-159): a zero
duration is ignored and the previous value kept. -/
def Builder.set_idle_timeout (b : Builder) (idle_timeout : Option Nat) : Builder :=
  if idle_timeout = some 0 then b else { b with idle_timeout := idle_timeout }

/-- Embeds `Builder::connection_timeout` (src/lib.rs lines 168-175): a zero
duration is ignored and the previous value kept. -/
def Builder.set_connection_timeout (b : Builder) (connection_timeout : Option Nat) : Builder :=
  if connection_timeout = some 0 then b else { b with connection_timeout := connection_timeout }

/-- Embeds `Builder::max_size` (src/lib.rs lines 182-185): plain assignment. -/
def Builder.set_max_size (b : Builder) (max_size : Nat) : Builder :=
  { b with max_size := max_size }

/-- Embeds `struct SharedPool<M>` (src/lib.rs lines 422-432) restricted to its
configuration fields. The `intervals` mutex cell is threaded explicitly as a
`PoolInternals C` argument of each operation, and the `manager` is passed per
call as a `ManageConnection C` record. -/
structure SharedPool where
  max_lifetime : Option Nat
  idle_timeout : Option Nat
  connection_timeout : Option Nat
  max_size : Nat
  deriving DecidableEq, Repr

/-- Embeds the configuration part of `Builder::build` (src/lib.rs
lines 188-209): the pool copies the four configuration fields. -/
def Builder.build (b : Builder) : SharedPool where
  max_lifetime := b.max_lifetime
  idle_timeout := b.idle_timeout
  connection_timeout := b.connection_timeout
  max_size := b.max_size

/-- Embeds the `intervals` initialisation in `Builder::build` (src/lib.rs
lines 192-195): empty registry, `active = 0`. -/
def initInternals (C : Type) : PoolInternals C where
  conns := []
  active := 0

/-- Embeds `Pool::exceed_idle_timeout` (src/lib.rs lines 302-311):
true when an idle timeout is configured, is positive, and
`conn.last_visited + idle_timeout < now`. -/
def Pool.exceed_idle_timeout {C : Type} (p : SharedPool) (now : Nat) (conn : IdleConn C) : Bool :=
  match p.idle_timeout with
  | some idle_timeout => decide (0 < idle_timeout) && decide (conn.last_visited + idle_timeout < now)
  | none => false

/-- Embeds `Pool::exceed_max_lifetime` (src/lib.rs lines 313-321):
true when a max lifetime is configured, is positive, and
`conn.created + max_lifetime < now`. -/
def Pool.exceed_max_lifetime {C : Type} (p : SharedPool) (now : Nat) (conn : IdleConn C) : Bool :=
  match p.max_lifetime with
  | some max_lifetime => decide (0 < max_lifetime) && decide (conn.created + max_lifetime < now)
  | none => false

/-- Embeds `Pool::exceed_limit` (src/lib.rs lines 352-359): true when
`max_size > 0` and the active counter is strictly greater than `max_size`. -/
def Pool.exceed_limit {C : Type} (p : SharedPool) (st : PoolInternals C) : Bool :=
  decide (0 < p.max_size) && decide (p.max_size < st.active)

/-- Embeds `Pool::get_timeout` (src/lib.rs lines 364-386). With a timeout
configured, `tokio::time::timeout` fails when the dial does not finish
strictly before the deadline; otherwise the result of `connect()` passes
through (a connect error is rewrapped by `other`, which the model keeps as the
same message). With no timeout the dial is awaited indefinitely. The method
reads only `self.0.manager`; it neither reads nor writes `self.0.intervals`. -/
def Pool.get_timeout {C : Type} (m : ManageConnection C) (connection_timeout : Option Nat) :
    Except String C :=
  match connection_timeout with
  | some t =>
    if t ≤ m.connectDuration then Except.error ("deadline has elapsed")
    else
      match m.connect with
      | Except.ok s => Except.ok s
      | Except.error e => Except.error e
  | none => m.connect

/-- Result of one `Pool::get` call: the returned lease or error, the registry
state after the call, and how many times `connect()` was invoked (0 or 1) —
the latter is instrumentation recording an externally observable call. -/
structure GetResult (C : Type) where
  result : Except String (IdleConn C)
  state : PoolInternals C
  connectCalls : Nat
  deriving Repr

/-- Embeds `Pool::get` (src/lib.rs lines 392-414): pop the front idle entry if
any; otherwise fail when `exceed_limit`; otherwise dial through `get_timeout`
with the configured `connection_timeout`, and on success increment `active`
and return a fresh entry with `last_visited = created = now`. -/
def Pool.get {C : Type} (p : SharedPool) (m : ManageConnection C) (st : PoolInternals C)
    (now : Nat) : GetResult C :=
  match st.conns with
  | conn :: rest => GetResult.mk (Except.ok conn) (PoolInternals.mk rest st.active) 0
  | [] =>
    if Pool.exceed_limit p st then GetResult.mk (Except.error ("exceed limit")) st 0
    else
      match Pool.get_timeout m p.connection_timeout with
      | Except.error e => GetResult.mk (Except.error e) st 1
      | Except.ok conn =>
        GetResult.mk (Except.ok (IdleConn.mk conn now now))
          (PoolInternals.mk st.conns (st.active + 1)) 1

/-- Embeds `Pool::put` (src/lib.rs lines 416-419): refresh `last_visited` to
now and push the entry onto the back of the registry. -/
def Pool.put {C : Type} (st : PoolInternals C) (now : Nat) (conn : IdleConn C) :
    PoolInternals C :=
  PoolInternals.mk (st.conns ++ [{ conn with last_visited := now }]) st.active

/-- Embeds `struct Connection<M>` (src/lib.rs lines 212-218): a lease holding
the entry moved out of the registry (`None` once taken). -/
structure Connection (C : Type) where
  conn : Option (IdleConn C)
  deriving DecidableEq, Repr

/-- Embeds `impl Drop for Connection` (src/lib.rs lines 220-229): if the lease
still holds its entry, hand it back through `Pool::put`; otherwise do
nothing. -/
def Connection.drop {C : Type} (c : Connection C) (st : PoolInternals C) (now : Nat) :
    PoolInternals C :=
  match c.conn with
  | some conn => Pool.put st now conn
  | none => st

/-- Result of one maintenance sweep: the registry state afterwards, the number
of entries popped, and the number of `check()` calls issued — the two counters
are instrumentation recording externally observable calls. -/
structure SweepResult (C : Type) where
  state : PoolInternals C
  pops : Nat
  checkCalls : Nat
  deriving DecidableEq, Repr


/-- Embeds the `for _ in 0..n` loop body of `Pool::check` (src/lib.rs
lines 327-348) with explicit fuel: pop the front entry (stop if the registry
is empty); discard it and decrement `active` when it exceeds the idle timeout
or max lifetime; otherwise call the capability `check` and push the entry to
the back on success or discard it and decrement `active` on failure. -/
def Pool.sweepIter {C : Type} (p : SharedPool) (m : ManageConnection C) (now : Nat) :
    Nat → PoolInternals C → SweepResult C
  | 0, st => SweepResult.mk st 0 0
  | n + 1, st =>
    match st.conns with
    | [] => SweepResult.mk st 0 0
    | conn :: rest =>
      if Pool.exceed_idle_timeout p now conn || Pool.exceed_max_lifetime p now conn then
        let r := Pool.sweepIter p m now n (PoolInternals.mk rest (st.active - 1))
        SweepResult.mk r.state (r.pops + 1) r.checkCalls
      else if m.check conn.conn then
        let r := Pool.sweepIter p m now n (PoolInternals.mk (rest ++ [conn]) st.active)
        SweepResult.mk r.state (r.pops + 1) (r.checkCalls + 1)
      else
        let r := Pool.sweepIter p m now n (PoolInternals.mk rest (st.active - 1))
        SweepResult.mk r.state (r.pops + 1) (r.checkCalls + 1)

/-- Embeds one wake of the maintenance loop `Pool::check` (src/lib.rs
lines 323-350): snapshot `n = idle_count()` and run the sweep loop with that
bound. -/
def Pool.check {C : Type} (p : SharedPool) (m : ManageConnection C) (now : Nat)
    (st : PoolInternals C) : SweepResult C :=
  Pool.sweepIter p m now st.conns.length st

/-! Concrete fixtures used by closed theorems: pools built through the
builder, and capability records with fixed behaviours. Connections are `Nat`
identifiers. -/

/-- A capability whose dial returns connection `0` instantly and whose checks
always succeed. -/
def mOk : ManageConnection Nat :=
  ManageConnection.mk (Except.ok 0) 0 (fun _ => true) (fun _ => false)

/-- A capability whose dial returns connection `1` instantly and whose checks
always succeed. -/
def mDial1 : ManageConnection Nat :=
  ManageConnection.mk (Except.ok 1) 0 (fun _ => true) (fun _ => false)

/-- A capability whose dial fails instantly. -/
def mErr : ManageConnection Nat :=
  ManageConnection.mk (Except.error ("boom")) 0 (fun _ => true) (fun _ => false)

/-- The pool configuration `Pool::builder().max_size(5).build(..)`. -/
def cfg5 : SharedPool := (Builder.default.set_max_size 5).build

/-- The pool configuration `Pool::builder().max_size(2).build(..)`. -/
def cfg2 : SharedPool := (Builder.default.set_max_size 2).build

/-- Iterates `Pool::get`, keeping only the registry state: the state after a
caller performs `n` consecutive acquires (holding every lease). -/
def Pool.getIter {C : Type} (p : SharedPool) (m : ManageConnection C) (now : Nat) :
    Nat → PoolInternals C → PoolInternals C
  | 0, st => st
  | n + 1, st => Pool.getIter p m now n (Pool.get p m st now).state

/-- `Pool::get_timeout` with the pool state threaded through explicitly: the
source method (src/lib.rs lines 364-386) has access to `self.0.intervals` but
its body reads only `self.0.manager`, so the state passes through unchanged. -/
def Pool.get_timeout_full {C : Type} (m : ManageConnection C) (connection_timeout : Option Nat)
    (st : PoolInternals C) : Except String C × PoolInternals C :=
  (Pool.get_timeout m connection_timeout, st)

/-- C1: the claim says a sixth acquire at `maxSize = 5` with five leased
connections and an empty registry fails with a capacity error and leaves
`activeCount` at 5. The code tests `active > max_size` (not `>=`), so
`exceed_limit` is false at `active = 5`, the acquire dials, succeeds, and
pushes `activeCount` to 6 — contradicting the repository test
`test_max_size_ok`, which asserts the sixth `get` errors and `active` stays
5. -/
theorem C1_sixth_acquire_admitted :
    Pool.exceed_limit cfg5 (PoolInternals.mk ([] : List (IdleConn Nat)) 5) = false ∧
    Pool.get cfg5 mOk (PoolInternals.mk ([] : List (IdleConn Nat)) 5) 0 =
      GetResult.mk (Except.ok (IdleConn.mk 0 0 0)) (PoolInternals.mk [] 6) 1 :=
  ⟨rfl, rfl⟩

/-- C2: the claim says `activeCount` never exceeds `maxSize` for any sequence
of acquires and releases when `maxSize > 0`. Starting from the empty pool with
`maxSize = 5`, five acquires reach `activeCount = 5`, and a sixth acquire
still succeeds and reaches `activeCount = 6 > maxSize` — the admission check
`active > max_size` admits one connection beyond the limit, contradicting the
repository test `test_max_size_ok`. -/
theorem C2_active_count_exceeds_max_size :
    cfg5.max_size = 5 ∧
    Pool.getIter cfg5 mOk 0 5 (initInternals Nat) = PoolInternals.mk [] 5 ∧
    Pool.get cfg5 mOk (Pool.getIter cfg5 mOk 0 5 (initInternals Nat)) 0 =
      GetResult.mk (Except.ok (IdleConn.mk 0 0 0)) (PoolInternals.mk [] 6) 1 :=
  ⟨rfl, rfl, rfl⟩

/-- C3 counterexample: the claim says `Pool::get_timeout` pops an idle entry
first, like `Pool::get`. On a pool whose registry holds the idle connection
`0` (active count 1), with a capability that dials connection `1`,
`get_timeout` returns the freshly dialed connection `1` — not the idle front
`0` — and leaves the registry and active counter untouched, while `Pool::get`
on the same state does return the idle entry `0`. -/
theorem C3_get_timeout_skips_idle_pop :
    Pool.get_timeout_full mDial1 (some 5) (PoolInternals.mk [IdleConn.mk 0 0 0] 1) =
      (Except.ok 1, PoolInternals.mk [IdleConn.mk 0 0 0] 1) ∧
    (Pool.get cfg5 mDial1 (PoolInternals.mk [IdleConn.mk 0 0 0] 1) 0).result =
      Except.ok (IdleConn.mk 0 0 0) ∧
    (Except.ok 1 : Except String Nat) ≠ Except.ok 0 :=
  ⟨rfl, rfl, by simp⟩

/-- C3 amended: `Pool::get_timeout` performs only the dial step of
acquisition, with the explicit timeout argument in place of the configured
default: it never touches the registry or the active counter, a `none` timeout
awaits the dial indefinitely, and the default acquire `Pool::get` delegates
its dial step to `get_timeout` with the configured `connection_timeout`,
wrapping a successful dial into a lease timestamped `now`. -/
theorem C3_get_timeout_dial_only (C : Type) (m : ManageConnection C) (p : SharedPool)
    (st : PoolInternals C) (t : Option Nat) (active now : Nat) :
    (Pool.get_timeout_full m t st).2 = st ∧
    Pool.get_timeout m none = m.connect ∧
    (Pool.exceed_limit p (PoolInternals.mk ([] : List (IdleConn C)) active) = false →
      (Pool.get p m (PoolInternals.mk ([] : List (IdleConn C)) active) now).result =
        Except.map (fun c => IdleConn.mk c now now) (Pool.get_timeout m p.connection_timeout)) :=
  by
  refine ⟨rfl, rfl, fun h => ?_⟩
  simp only [Pool.get, h, if_false, Bool.false_eq_true]
  cases Pool.get_timeout m p.connection_timeout <;> rfl

/-- C3 amended, witness: instantiation at the capability dialing connection
`1`, the `maxSize = 5` pool, the empty registry with `active = 0`, and the
explicit timeout 5. -/
theorem C3_get_timeout_dial_only_witness :
    (Pool.get_timeout_full mDial1 (some 5) (initInternals Nat)).2 = initInternals Nat ∧
    Pool.get_timeout mDial1 none = mDial1.connect ∧
    (Pool.exceed_limit cfg5 (PoolInternals.mk ([] : List (IdleConn Nat)) 0) = false →
      (Pool.get cfg5 mDial1 (PoolInternals.mk ([] : List (IdleConn Nat)) 0) 3).result =
        Except.map (fun c => IdleConn.mk c 3 3) (Pool.get_timeout mDial1 cfg5.connection_timeout)) :=
  C3_get_timeout_dial_only Nat mDial1 cfg5 (initInternals Nat) (some 5) 0 3

/-- C4 counterexample: the claim says a pool built with a zero duration for
`maxLifetime` never evicts a connection on that criterion. The builder setter
ignores `Some(0)` and keeps the previous value — here the 30-minute default —
so `exceed_max_lifetime` still evicts a connection created at time 0 once
`now` passes 30 minutes (1800000001 microseconds). -/
theorem C4_zero_lifetime_keeps_default :
    ((Builder.default.set_max_lifetime (some 0)).build).max_lifetime = some 1800000000 ∧
    Pool.exceed_max_lifetime ((Builder.default.set_max_lifetime (some 0)).build) 1800000001
      (IdleConn.mk (0 : Nat) 0 0) = true :=
  ⟨rfl, by decide⟩

/-- C4 amended: passing a zero duration for `idleTimeout` or `maxLifetime` to
the builder setter is ignored, leaving the previously configured (default)
value in place, so eviction on that criterion still follows that value; the
eviction predicates themselves treat a stored zero duration as no limit, so
only a pool whose stored option is zero never evicts on that criterion. -/
theorem C4_zero_duration_semantics (C : Type) (b : Builder) (p : SharedPool) (now : Nat)
    (conn : IdleConn C) :
    b.set_max_lifetime (some 0) = b ∧
    b.set_idle_timeout (some 0) = b ∧
    (p.idle_timeout = some 0 → Pool.exceed_idle_timeout p now conn = false) ∧
    (p.max_lifetime = some 0 → Pool.exceed_max_lifetime p now conn = false) :=
  by
  refine ⟨rfl, rfl, fun h => ?_, fun h => ?_⟩
  · simp [Pool.exceed_idle_timeout, h]
  · simp [Pool.exceed_max_lifetime, h]

/-- C4 amended, witness: instantiation at the default builder and a pool whose
stored timeouts are both zero. -/
theorem C4_zero_duration_semantics_witness :
    Builder.default.set_max_lifetime (some 0) = Builder.default ∧
    Builder.default.set_idle_timeout (some 0) = Builder.default ∧
    Pool.exceed_idle_timeout (SharedPool.mk (some 0) (some 0) none 0) 9
      (IdleConn.mk (0 : Nat) 0 0) = false ∧
    Pool.exceed_max_lifetime (SharedPool.mk (some 0) (some 0) none 0) 9
      (IdleConn.mk (0 : Nat) 0 0) = false :=
  by
  have h := C4_zero_duration_semantics Nat Builder.default
    (SharedPool.mk (some 0) (some 0) none 0) 9 (IdleConn.mk 0 0 0)
  exact ⟨h.1, h.2.1, h.2.2.1 rfl, h.2.2.2 rfl⟩

/-- Scenario B state: on the `maxSize = 2` pool, acquire twice (at times 0 and
1), then release both leases (at times 5 and 6) by dropping the `Connection`
wrappers that hold the leased entries. -/
def scenarioBState : PoolInternals Nat :=
  Connection.drop (Connection.mk (some (IdleConn.mk 0 1 1)))
    (Connection.drop (Connection.mk (some (IdleConn.mk 0 0 0)))
      (Pool.get cfg2 mOk (Pool.get cfg2 mOk (initInternals Nat) 0).state 1).state 5) 6

/-- C5: whenever the registry is non-empty, `Pool::get` returns the front
(oldest) idle entry as the lease, calls `connect` zero times, and leaves
`active` unchanged; and in the concrete scenario with `maxSize = 2` — acquire
twice, release both — a further acquire succeeds by reusing the first released
entry with `active` still 2 and no `connect` call. -/
theorem C5_nonempty_registry_reuses_front (C : Type) (p : SharedPool) (m : ManageConnection C)
    (conn : IdleConn C) (rest : List (IdleConn C)) (active now : Nat) :
    Pool.get p m (PoolInternals.mk (conn :: rest) active) now =
      GetResult.mk (Except.ok conn) (PoolInternals.mk rest active) 0 ∧
    scenarioBState.active = 2 ∧
    (Pool.get cfg2 mOk scenarioBState 7).result = Except.ok (IdleConn.mk 0 5 0) ∧
    (Pool.get cfg2 mOk scenarioBState 7).state.active = 2 ∧
    (Pool.get cfg2 mOk scenarioBState 7).connectCalls = 0 :=
  ⟨rfl, rfl, rfl, rfl, rfl⟩

/-- C7: dropping a `Connection` that still holds its entry hands the entry to
`Pool::put`, which refreshes `last_visited` to now, keeps `created` and the
connection untouched, pushes the entry onto the back of the registry behind
the existing entries, and leaves `active` (and everything else in the state)
unchanged. -/
theorem C7_release_refreshes_and_appends (C : Type) (st : PoolInternals C) (now : Nat)
    (ic : IdleConn C) :
    Connection.drop (Connection.mk (some ic)) st now =
      PoolInternals.mk (st.conns ++ [IdleConn.mk ic.conn now ic.created]) st.active ∧
    (Connection.drop (Connection.mk (some ic)) st now).active = st.active ∧
    Pool.put st now ic =
      PoolInternals.mk (st.conns ++ [IdleConn.mk ic.conn now ic.created]) st.active :=
  ⟨rfl, rfl, rfl⟩

/-- C8: when `Pool::get` dials (registry empty, limit not hit), a successful
dial yields a lease whose `created` and `last_visited` both equal `now` and
increments `active` by one; a dial timeout or connect error is returned with
the registry and `active` exactly as before the call. -/
theorem C8_dial_success_and_failure (C : Type) (p : SharedPool) (m : ManageConnection C)
    (active now : Nat)
    (h : Pool.exceed_limit p (PoolInternals.mk ([] : List (IdleConn C)) active) = false) :
    (∀ c : C, Pool.get_timeout m p.connection_timeout = Except.ok c →
      Pool.get p m (PoolInternals.mk [] active) now =
        GetResult.mk (Except.ok (IdleConn.mk c now now)) (PoolInternals.mk [] (active + 1)) 1) ∧
    (∀ e : String, Pool.get_timeout m p.connection_timeout = Except.error e →
      Pool.get p m (PoolInternals.mk [] active) now =
        GetResult.mk (Except.error e) (PoolInternals.mk [] active) 1) :=
  by
  constructor
  · intro c hc
    simp only [Pool.get, h, Bool.false_eq_true, if_false, hc]
  · intro e he
    simp only [Pool.get, h, Bool.false_eq_true, if_false, he]

/-- C8 witness: on the `maxSize = 5` pool with an empty registry and
`active = 0`, a capability dialing connection `0` instantly yields the
timestamped lease and `active = 1`, and a capability whose dial errors leaves
the state unchanged. -/
theorem C8_dial_success_and_failure_witness :
    Pool.get cfg5 mOk (PoolInternals.mk [] 0) 4 =
      GetResult.mk (Except.ok (IdleConn.mk 0 4 4)) (PoolInternals.mk [] 1) 1 ∧
    Pool.get cfg5 mErr (PoolInternals.mk [] 0) 4 =
      GetResult.mk (Except.error ("boom")) (PoolInternals.mk [] 0) 1 :=
  ⟨(C8_dial_success_and_failure Nat cfg5 mOk 0 4 rfl).1 0 rfl,
    (C8_dial_success_and_failure Nat cfg5 mErr 0 4 rfl).2 ("boom") rfl⟩

/-- Helper: the sweep loop pops at most as many entries as its fuel allows. -/
theorem Pool.sweepIter_pops_le {C : Type} (p : SharedPool) (m : ManageConnection C) (now : Nat)
    (n : Nat) : ∀ st : PoolInternals C, (Pool.sweepIter p m now n st).pops ≤ n := by
  induction n with
  | zero => intro st; exact Nat.le_refl 0
  | succ k ih =>
    intro st
    cases hc : st.conns with
    | nil => simp [Pool.sweepIter, hc]
    | cons conn rest =>
      simp only [Pool.sweepIter, hc]
      split
      · exact Nat.succ_le_succ (ih _)
      · split
        · exact Nat.succ_le_succ (ih _)
        · exact Nat.succ_le_succ (ih _)

/-- C6: one maintenance sweep pops at most `n` entries where `n` is the
registry length at the start; an entry past its idle timeout or max lifetime
is discarded with `active` decremented and no `check` call; otherwise `check`
is called once for the entry — on success it is pushed to the tail, on failure
it is discarded with `active` decremented, the failure producing no error in
the sweep result; the sweep stops as soon as the registry is empty. -/
theorem C6_sweep_behaviour (C : Type) (p : SharedPool) (now : Nat) :
    (∀ (m : ManageConnection C) (st : PoolInternals C),
      (Pool.check p m now st).pops ≤ st.conns.length) ∧
    (∀ (m : ManageConnection C) (n active : Nat),
      Pool.sweepIter p m now n (PoolInternals.mk ([] : List (IdleConn C)) active) =
        SweepResult.mk (PoolInternals.mk [] active) 0 0) ∧
    (∀ (m : ManageConnection C) (n active : Nat) (conn : IdleConn C) (rest : List (IdleConn C)),
      (Pool.exceed_idle_timeout p now conn || Pool.exceed_max_lifetime p now conn) = true →
      Pool.sweepIter p m now (n + 1) (PoolInternals.mk (conn :: rest) active) =
        SweepResult.mk (Pool.sweepIter p m now n (PoolInternals.mk rest (active - 1))).state
          ((Pool.sweepIter p m now n (PoolInternals.mk rest (active - 1))).pops + 1)
          (Pool.sweepIter p m now n (PoolInternals.mk rest (active - 1))).checkCalls) ∧
    (∀ (m : ManageConnection C) (n active : Nat) (conn : IdleConn C) (rest : List (IdleConn C)),
      (Pool.exceed_idle_timeout p now conn || Pool.exceed_max_lifetime p now conn) = false →
      m.check conn.conn = true →
      Pool.sweepIter p m now (n + 1) (PoolInternals.mk (conn :: rest) active) =
        SweepResult.mk
          (Pool.sweepIter p m now n (PoolInternals.mk (rest ++ [conn]) active)).state
          ((Pool.sweepIter p m now n (PoolInternals.mk (rest ++ [conn]) active)).pops + 1)
          ((Pool.sweepIter p m now n (PoolInternals.mk (rest ++ [conn]) active)).checkCalls + 1)) ∧
    (∀ (m : ManageConnection C) (n active : Nat) (conn : IdleConn C) (rest : List (IdleConn C)),
      (Pool.exceed_idle_timeout p now conn || Pool.exceed_max_lifetime p now conn) = false →
      m.check conn.conn = false →
      Pool.sweepIter p m now (n + 1) (PoolInternals.mk (conn :: rest) active) =
        SweepResult.mk (Pool.sweepIter p m now n (PoolInternals.mk rest (active - 1))).state
          ((Pool.sweepIter p m now n (PoolInternals.mk rest (active - 1))).pops + 1)
          ((Pool.sweepIter p m now n (PoolInternals.mk rest (active - 1))).checkCalls + 1)) := by
  refine ⟨fun m st => Pool.sweepIter_pops_le p m now st.conns.length st,
    fun m n active => ?_, fun m n active conn rest hexp => ?_,
    fun m n active conn rest hexp hchk => ?_, fun m n active conn rest hexp hchk => ?_⟩
  · cases n <;> rfl
  · simp only [Pool.sweepIter, hexp, if_true]
  · simp only [Pool.sweepIter, hexp, Bool.false_eq_true, if_false, hchk, if_true]
  · simp only [Pool.sweepIter, hexp, Bool.false_eq_true, if_false, hchk]

/-- The default pool configuration `Pool::builder().build(..)`. -/
def pW : SharedPool := Builder.default.build

/-- A capability whose checks always fail. -/
def mFail : ManageConnection Nat :=
  ManageConnection.mk (Except.ok 0) 0 (fun _ => false) (fun _ => false)

/-- An entry released at time 0: past the default 3-minute idle timeout at
time 200000001 μs. -/
def cExpW : IdleConn Nat := IdleConn.mk 5 0 0

/-- An entry created and released at 200000000 μs: fresh at 200000001 μs. -/
def cAliveW : IdleConn Nat := IdleConn.mk 1 200000000 200000000

/-- C6 witness: under the default configuration at time 200000001 μs — the
sweep pops at most one entry from a one-entry registry; a sweep of an empty
registry does nothing; the expired entry is discarded with `active` going from
3 to 2 and zero `check` calls; the fresh entry is re-enqueued at the tail
after one successful `check`; and with a failing `check` the fresh entry is
discarded with `active` decremented after one `check` call. -/
theorem C6_sweep_behaviour_witness :
    (Pool.check pW mOk 200000001 (PoolInternals.mk [cAliveW] 3)).pops ≤ 1 ∧
    Pool.sweepIter pW mOk 200000001 4 (PoolInternals.mk ([] : List (IdleConn Nat)) 7) =
      SweepResult.mk (PoolInternals.mk [] 7) 0 0 ∧
    Pool.sweepIter pW mOk 200000001 1 (PoolInternals.mk [cExpW] 3) =
      SweepResult.mk (PoolInternals.mk [] 2) 1 0 ∧
    Pool.sweepIter pW mOk 200000001 1 (PoolInternals.mk [cAliveW] 3) =
      SweepResult.mk (PoolInternals.mk [cAliveW] 3) 1 1 ∧
    Pool.sweepIter pW mFail 200000001 1 (PoolInternals.mk [cAliveW] 3) =
      SweepResult.mk (PoolInternals.mk [] 2) 1 1 :=
  by
  have h := C6_sweep_behaviour Nat pW 200000001
  exact ⟨h.1 mOk (PoolInternals.mk [cAliveW] 3), h.2.1 mOk 4 7,
    h.2.2.1 mOk 0 3 cExpW [] (by decide),
    h.2.2.2.1 mOk 0 3 cAliveW [] (by decide) rfl,
    h.2.2.2.2 mFail 0 3 cAliveW [] (by decide) rfl⟩

/-- The change one `Pool::get` call makes to the number of leased-out
connections: 1 when a lease is returned, 0 on error. -/
def GetResult.leaseDelta {C : Type} (r : GetResult C) : Nat :=
  match r.result with
  | Except.ok _ => 1
  | Except.error _ => 0

/-- A pool state paired with the number of currently leased-out connections
(`Connection` values held by callers and not yet dropped). -/
structure ModelState (C : Type) where
  internals : PoolInternals C
  leased : Nat

/-- One observable step against the pool: an acquire (`Pool::get`, under any
capability behaviour and at any time), the release of one held lease
(`Connection::drop`, which calls `Pool::put`), or one wake of the maintenance
loop (`Pool::check`). -/
inductive PoolStep {C : Type} (p : SharedPool) : ModelState C → ModelState C → Prop where
  | acquire (m : ManageConnection C) (now : Nat) (s : ModelState C) :
      PoolStep p s (ModelState.mk (Pool.get p m s.internals now).state
        (s.leased + (Pool.get p m s.internals now).leaseDelta))
  | release (now : Nat) (ic : IdleConn C) (s : ModelState C) (h : 0 < s.leased) :
      PoolStep p s (ModelState.mk (Pool.put s.internals now ic) (s.leased - 1))
  | sweep (m : ManageConnection C) (now : Nat) (s : ModelState C) :
      PoolStep p s (ModelState.mk (Pool.check p m now s.internals).state s.leased)

/-- Helper: the sweep loop preserves the accounting `active = idle + k`
(every discarded entry decrements both sides, a re-enqueued entry neither). -/
theorem Pool.sweepIter_active_eq {C : Type} (p : SharedPool) (m : ManageConnection C) (now : Nat)
    (n : Nat) : ∀ (st : PoolInternals C) (k : Nat), st.active = st.conns.length + k →
      (Pool.sweepIter p m now n st).state.active =
        (Pool.sweepIter p m now n st).state.conns.length + k := by
  induction n with
  | zero => intro st k h; exact h
  | succ j ih =>
    intro st k h
    rw [show st = PoolInternals.mk st.conns st.active from rfl] at h
    cases hc : st.conns with
    | nil =>
      simp only [Pool.sweepIter, hc]
      rw [hc] at h
      simpa using h
    | cons conn rest =>
      rw [hc] at h
      simp only [List.length_cons] at h
      simp only [Pool.sweepIter, hc]
      split
      · simp only []
        apply ih
        simp only [List.length_cons]
        omega
      · split
        · apply ih
          simp only [List.length_append, List.length_cons, List.length_nil]
          omega
        · apply ih
          simp only [List.length_cons]
          omega

/-- Helper: each pool step preserves the exact accounting
`active = idleRegistry.length + leased`. -/
theorem PoolStep.preserves_accounting {C : Type} (p : SharedPool) (s t : ModelState C)
    (hstep : PoolStep p s t)
    (h : s.internals.active = s.internals.conns.length + s.leased) :
    t.internals.active = t.internals.conns.length + t.leased := by
  cases hstep with
  | acquire m now s =>
    cases hc : s.internals.conns with
    | cons conn rest =>
      simp only [Pool.get, hc, GetResult.leaseDelta]
      rw [hc] at h
      simp only [List.length_cons] at h
      omega
    | nil =>
      rw [hc] at h
      simp only [List.length_nil, Nat.zero_add] at h
      simp only [Pool.get, hc]
      split
      · simpa [GetResult.leaseDelta, hc] using h
      · cases hg : Pool.get_timeout m p.connection_timeout with
        | error e => simpa [GetResult.leaseDelta, hc] using h
        | ok c =>
          simp only [GetResult.leaseDelta, hc, List.length_nil]
          omega
  | release now ic s hl =>
    simp only [Pool.put, List.length_append, List.length_cons, List.length_nil]
    omega
  | sweep m now s =>
    exact Pool.sweepIter_active_eq p m now s.internals.conns.length s.internals s.leased h

/-- C9: in every state reachable by acquire, release and maintenance-sweep
steps from the freshly built pool, `active` equals the registry length plus
the number of leased-out connections, and hence the registry length never
exceeds `active`. -/
theorem C9_idle_length_le_active (C : Type) (p : SharedPool) (s : ModelState C)
    (h : Relation.ReflTransGen (PoolStep p) (ModelState.mk (initInternals C) 0) s) :
    s.internals.active = s.internals.conns.length + s.leased ∧
    s.internals.conns.length ≤ s.internals.active := by
  have key : s.internals.active = s.internals.conns.length + s.leased := by
    induction h with
    | refl => rfl
    | tail hab hbc ih => exact PoolStep.preserves_accounting p _ _ hbc ih
  exact ⟨key, by omega⟩

/-- C9 witness: the state after one successful acquire from the freshly built
`maxSize = 5` pool — one active connection, none idle, one leased out. -/
theorem C9_idle_length_le_active_witness :
    (PoolInternals.mk ([] : List (IdleConn Nat)) 1).active =
      (PoolInternals.mk ([] : List (IdleConn Nat)) 1).conns.length + 1 ∧
    (PoolInternals.mk ([] : List (IdleConn Nat)) 1).conns.length ≤
      (PoolInternals.mk ([] : List (IdleConn Nat)) 1).active :=
  C9_idle_length_le_active Nat cfg5 (ModelState.mk (PoolInternals.mk [] 1) 1)
    (Relation.ReflTransGen.single
      (PoolStep.acquire mOk 0 (ModelState.mk (initInternals Nat) 0)))

/-- Helper: the sweep loop depends on the capability only through its `check`
function. -/
theorem Pool.sweepIter_ext_check {C : Type} (p : SharedPool) (now : Nat) (n : Nat) :
    ∀ (ma mb : ManageConnection C), ma.check = mb.check →
      ∀ st : PoolInternals C, Pool.sweepIter p ma now n st = Pool.sweepIter p mb now n st := by
  induction n with
  | zero => intro ma mb h st; rfl
  | succ k ih =>
    intro ma mb h st
    cases hc : st.conns with
    | nil => simp [Pool.sweepIter, hc]
    | cons conn rest => simp only [Pool.sweepIter, hc, h, ih ma mb h]

/-- C10: no pool operation consults the capability `has_broken` method —
replacing `has_broken` by an arbitrary function changes nothing about
`get_timeout`, `get` or the maintenance sweep; `Pool::put` and
`Connection::drop` take no capability at all, so a release cannot consult it
either. This is despite the `ManageConnection` trait requiring the method and
its documentation saying it is called on every get from the pool. -/
theorem C10_has_broken_never_called (C : Type) (p : SharedPool) (m : ManageConnection C)
    (f : C → Bool) (st : PoolInternals C) (now : Nat) (t : Option Nat) :
    Pool.get_timeout { m with has_broken := f } t = Pool.get_timeout m t ∧
    Pool.get p { m with has_broken := f } st now = Pool.get p m st now ∧
    Pool.check p { m with has_broken := f } now st = Pool.check p m now st :=
  ⟨rfl, rfl, Pool.sweepIter_ext_check p now st.conns.length { m with has_broken := f } m rfl st⟩
